import Mathlib

/-!
Verification of the `node` builtin task of hardhat
(`packages/hardhat-core/src/builtin-tasks/node.ts`).

The task is shallowly embedded as pure functions. Each launch runs against an
`Env` that fixes everything the TypeScript code reads from its surroundings:
the ambient network name, whether the network was selected explicitly on the
command line (`hardhatArguments.network`), the `hardhat` network configuration,
the project paths and artifacts, whether the `/.dockerenv` marker file exists,
and the outcome of every awaited external call (the two `provider.request`
configuration calls, `server.listen()`, `watchCompilerOutput`, and
`server.waitUntilClosed()`). A run produces the ordered list of observable
events (provider construction, provider requests, server creation, the two
lifecycle hooks, listen, watcher activity, warnings, error reports) together
with an `Except` outcome mirroring the thrown/returned behaviour of the task
action.

External collaborators (the EVM provider, the JSON-RPC server transport, the
artifact watcher, the Sentry reporter, `ethereumjs-util` key derivation) are
out of scope per the code's imports; their observable interaction points are
modelled as events and as `Env`-supplied results. Hex normalisation by
`bufferToHex ∘ toBuffer` on an already-canonical private-key string is
modelled as the identity, and address derivation
(`bufferToHex ∘ privateToAddress ∘ toBuffer`) as an arbitrary function
parameter `derive`.
-/

namespace NodeTask

/-- The designated local network name, `HARDHAT_NETWORK_NAME` from
`internal/constants`. -/
def HARDHAT_NETWORK_NAME : String := "hardhat"

/-- The `forking` section of the hardhat network configuration:
`{ url: string; blockNumber?: number }`. -/
structure Forking where
  url : String
  blockNumber : Option Nat
deriving DecidableEq

/-- One configured account: a private key (canonical hex string) and a balance
in base units (wei). -/
structure Account where
  privateKey : String
  balance : Nat
deriving DecidableEq

/-- The part of `HardhatNetworkConfig` read by the node task: the optional
`forking` section and the optional account list. -/
structure NetworkConfig where
  forking : Option Forking
  accounts : Option (List Account)
deriving DecidableEq

/-- An error raised by an external collaborator (a provider request,
`server.listen()`, the watcher, `server.waitUntilClosed()`); such an error is
not a `HardhatError`, so `HardhatError.isHardhatError` is false on it. -/
structure CollabErr where
  message : String
deriving DecidableEq

/-- The identifiers from `errors-list.ts` that this task can throw. -/
inductive ErrCode where
  | nodeForkBlockNumberWithoutUrl
  | jsonrpcUnsupportedNetwork
  | jsonrpcServerError
deriving DecidableEq

/-- An error escaping (part of) the task action: either a `HardhatError`
(with its optional message argument and optional wrapped cause) or a raw
collaborator error still unwrapped. -/
inductive LaunchErr where
  | hardhat (code : ErrCode) (messageArg : Option String) (cause : Option CollabErr)
  | external (e : CollabErr)
deriving DecidableEq

/-- A provider-level configuration call issued through `provider.request`. -/
inductive ProviderCall where
  | hardhatReset (url : String) (blockNumber : Option Nat)
  | setLoggingEnabled (b : Bool)
deriving DecidableEq

/-- The provider value produced by `TASK_NODE_GET_PROVIDER`: either the
ambient `network.provider`, or a freshly constructed provider
(`createProvider(name, config, paths, artifacts)`). -/
inductive Provider where
  | ambient
  | fresh (name : String) (cfg : NetworkConfig) (paths : String) (artifacts : String)
deriving DecidableEq

/-- The value `server.listen()` resolves to: the actually bound address and
port. -/
structure ListenResult where
  address : String
  port : Nat
deriving DecidableEq

/-- Observable events of a launch, in the order they happen. -/
inductive Event where
  | createdProvider (name : String) (cfg : NetworkConfig) (paths : String) (artifacts : String)
  | request (call : ProviderCall)
  | serverCreated (hostname : String) (port : Nat)
  | hookServerCreated (hostname : String) (port : Nat)
  | listenCalled
  | listenResolved (address : String) (port : Nat)
  | watchCalled
  | warnLogged
  | reportedError (e : CollabErr)
  | hookServerReady (address : String) (port : Nat)
  | waitUntilClosedCalled
deriving DecidableEq

instance {ε α : Type} [DecidableEq ε] [DecidableEq α] : DecidableEq (Except ε α) := fun x y =>
  match x, y with
  | Except.ok a, Except.ok b =>
    if h : a = b then isTrue (by rw [h]) else isFalse (by intro hc; cases hc; exact h rfl)
  | Except.ok _, Except.error _ => isFalse (by intro hc; cases hc)
  | Except.error _, Except.ok _ => isFalse (by intro hc; cases hc)
  | Except.error a, Except.error b =>
    if h : a = b then isTrue (by rw [h]) else isFalse (by intro hc; cases hc; exact h rfl)

/-- Everything the task reads from its surroundings, including the outcome of
every awaited external call. -/
structure Env where
  networkName : String
  explicitNetwork : Option String
  hardhatNetworkConfig : NetworkConfig
  paths : String
  artifacts : String
  insideDocker : Bool
  resetResult : Except CollabErr Unit
  loggingResult : Except CollabErr Unit
  listenResult : Except CollabErr ListenResult
  watchResult : Except CollabErr Unit
  waitClosedResult : Except CollabErr Unit
deriving DecidableEq

/-- The arguments of the `node` task (`--fork-block-number`, `--fork-url`,
`--hostname`, `--port`; `port` defaults to 8545). -/
structure NodeArgs where
  forkBlockNumber : Option Nat
  forkUrl : Option String
  hostname : Option String
  port : Nat
deriving DecidableEq

/-- `forkUrlParam ?? hardhatNetworkConfig.forking?.url` (node.ts line 85). -/
def effectiveForkUrl (forkUrlParam : Option String) (cfg : NetworkConfig) : Option String :=
  match forkUrlParam with
  | some u => some u
  | none => cfg.forking.map Forking.url

/-- `forkBlockNumberParam ?? hardhatNetworkConfig.forking?.blockNumber`
(node.ts lines 86-87). -/
def effectiveForkBlockNumber (forkBlockNumberParam : Option Nat) (cfg : NetworkConfig) :
    Option Nat :=
  match forkBlockNumberParam with
  | some n => some n
  | none => cfg.forking.bind Forking.blockNumber

/-- The provider-construction events of `TASK_NODE_GET_PROVIDER` (node.ts
lines 71-81): when the ambient network is not the hardhat network, a fresh
provider is created for the hardhat network from its declared configuration,
the project paths and the artifacts. -/
def creationEvents (env : Env) : List Event :=
  if env.networkName ≠ HARDHAT_NETWORK_NAME then
    [Event.createdProvider HARDHAT_NETWORK_NAME env.hardhatNetworkConfig env.paths env.artifacts]
  else []

/-- The provider variable after lines 69-81: the ambient provider, replaced by
a fresh hardhat-network provider when the ambient network is a different
one. -/
def resolvedProvider (env : Env) : Provider :=
  if env.networkName ≠ HARDHAT_NETWORK_NAME then
    Provider.fresh HARDHAT_NETWORK_NAME env.hardhatNetworkConfig env.paths env.artifacts
  else Provider.ambient

/-- The `TASK_NODE_GET_PROVIDER` action (node.ts lines 55-118): resolve the
provider, merge the forking overrides with the configured forking section,
issue a `hardhat_reset` request when an effective fork url exists, throw
`NODE_FORK_BLOCK_NUMBER_WITHOUT_URL` when only an effective block number
exists, and finally issue `hardhat_setLoggingEnabled`. -/
def runGetProvider (forkBlockNumberParam : Option Nat) (forkUrlParam : Option String)
    (env : Env) : List Event × Except LaunchErr Provider :=
  let ce := creationEvents env
  let cfg := env.hardhatNetworkConfig
  match effectiveForkUrl forkUrlParam cfg with
  | some url =>
    match env.resetResult with
    | Except.error e =>
      (ce ++ [Event.request (ProviderCall.hardhatReset url
        (effectiveForkBlockNumber forkBlockNumberParam cfg))],
       Except.error (LaunchErr.external e))
    | Except.ok _ =>
      match env.loggingResult with
      | Except.error e =>
        (ce ++ [Event.request (ProviderCall.hardhatReset url
            (effectiveForkBlockNumber forkBlockNumberParam cfg)),
          Event.request (ProviderCall.setLoggingEnabled true)],
         Except.error (LaunchErr.external e))
      | Except.ok _ =>
        (ce ++ [Event.request (ProviderCall.hardhatReset url
            (effectiveForkBlockNumber forkBlockNumberParam cfg)),
          Event.request (ProviderCall.setLoggingEnabled true)],
         Except.ok (resolvedProvider env))
  | none =>
    match effectiveForkBlockNumber forkBlockNumberParam cfg with
    | some _ =>
      (ce, Except.error (LaunchErr.hardhat ErrCode.nodeForkBlockNumberWithoutUrl none none))
    | none =>
      match env.loggingResult with
      | Except.error e =>
        (ce ++ [Event.request (ProviderCall.setLoggingEnabled true)],
         Except.error (LaunchErr.external e))
      | Except.ok _ =>
        (ce ++ [Event.request (ProviderCall.setLoggingEnabled true)],
         Except.ok (resolvedProvider env))

/-- Hostname resolution (node.ts lines 256-268): an explicit hostname is used
verbatim; otherwise `0.0.0.0` when `/.dockerenv` exists, else `localhost`. -/
def resolveHostname (hostnameParam : Option String) (insideDocker : Bool) : String :=
  match hostnameParam with
  | some h => h
  | none => if insideDocker then "0.0.0.0" else "localhost"

/-- The body of the `try` block of the `TASK_NODE` action (node.ts lines
250-309): get the provider, resolve the hostname, create the server, run the
server-created hook, listen, try watching the compiler output (absorbing any
watcher error into a warning and an error report), run the server-ready hook
with the actually bound address and port, and wait until the server closes. -/
def runNodeTry (args : NodeArgs) (env : Env) : List Event × Except LaunchErr Unit :=
  let gp := runGetProvider args.forkBlockNumber args.forkUrl env
  match gp.2 with
  | Except.error e => (gp.1, Except.error e)
  | Except.ok _ =>
    let hostname := resolveHostname args.hostname env.insideDocker
    let pre := gp.1 ++
      [Event.serverCreated hostname args.port,
       Event.hookServerCreated hostname args.port,
       Event.listenCalled]
    match env.listenResult with
    | Except.error e => (pre, Except.error (LaunchErr.external e))
    | Except.ok lr =>
      let watchEvents :=
        match env.watchResult with
        | Except.error e => [Event.warnLogged, Event.reportedError e]
        | Except.ok _ => []
      let full := pre ++
        [Event.listenResolved lr.address lr.port, Event.watchCalled] ++ watchEvents ++
        [Event.hookServerReady lr.address lr.port, Event.waitUntilClosedCalled]
      match env.waitClosedResult with
      | Except.error e => (full, Except.error (LaunchErr.external e))
      | Except.ok _ => (full, Except.ok ())

/-- The `catch` block of the `TASK_NODE` action (node.ts lines 310-322): a
`HardhatError` is rethrown unchanged; anything else is wrapped into
`JSONRPC_SERVER_ERROR` carrying the original message and the original error
as cause. -/
def wrapLaunchErrors : List Event × Except LaunchErr Unit → List Event × Except LaunchErr Unit
  | (evs, Except.ok _) => (evs, Except.ok ())
  | (evs, Except.error (LaunchErr.hardhat c m ca)) =>
      (evs, Except.error (LaunchErr.hardhat c m ca))
  | (evs, Except.error (LaunchErr.external e)) =>
      (evs, Except.error (LaunchErr.hardhat ErrCode.jsonrpcServerError
        (some e.message) (some e)))

/-- The whole `TASK_NODE` action (node.ts lines 225-324): throw
`JSONRPC_UNSUPPORTED_NETWORK` when the ambient network is not the hardhat
network and a network was selected explicitly, else run the try block under
the error-wrapping catch. -/
def runNode (args : NodeArgs) (env : Env) : List Event × Except LaunchErr Unit :=
  if env.networkName ≠ HARDHAT_NETWORK_NAME ∧ env.explicitNetwork ≠ none then
    ([], Except.error (LaunchErr.hardhat ErrCode.jsonrpcUnsupportedNetwork none none))
  else wrapLaunchErrors (runNodeTry args env)

/-- The provider-level configuration calls contained in a trace, in order. -/
def providerCalls (t : List Event) : List ProviderCall :=
  t.filterMap fun e =>
    match e with
    | Event.request r => some r
    | _ => none

/-- Event `e1` occurs strictly before event `e2` in trace `t`. -/
def eventBefore (e1 e2 : Event) (t : List Event) : Prop :=
  ∃ l1 l2 l3, t = l1 ++ e1 :: (l2 ++ e2 :: l3)

/-- The run of `runNode args env` fails with the `HardhatError` of code `c`. -/
def failsWithCode (c : ErrCode) (r : List Event × Except LaunchErr Unit) : Prop :=
  ∃ m ca, r.2 = Except.error (LaunchErr.hardhat c m ca)

/-- The balance printed for an account (node.ts lines 45-47):
`new BN(account.balance).div(new BN(10).pow(new BN(18)))`. `BN.div` on
non-negative big integers is truncating division, i.e. `Nat` division. -/
def displayedBalance (a : Account) : Nat :=
  a.balance / 10 ^ 18

/-- The block printed for account number `index` (node.ts lines 49-51), with
`derive` standing for `bufferToHex ∘ privateToAddress ∘ toBuffer`. -/
def accountBlock (derive : String → String) (index : Nat) (a : Account) : String :=
  "Account #" ++ toString index ++ ": " ++ derive a.privateKey ++ " (" ++
    toString (displayedBalance a) ++ " ETH)\nPrivate Key: " ++ a.privateKey ++ "\n"

/-- `logHardhatNetworkAccounts` (node.ts lines 34-53) as the list of strings
it prints: nothing when `accounts` is undefined, else a two-line header
followed by one block per account in configured order. -/
def logHardhatNetworkAccounts (derive : String → String) (cfg : NetworkConfig) :
    List String :=
  match cfg.accounts with
  | none => []
  | some accounts =>
    "Accounts" :: "========" ::
      (accounts.enum.map fun p => accountBlock derive p.1 p.2)

/-- The startup banner of the default `TASK_NODE_SERVER_READY` action
(node.ts lines 187-191). -/
def startedBanner (address : String) (port : Nat) : String :=
  "Started HTTP and WebSocket JSON-RPC server at http://" ++ address ++ ":" ++
    toString port ++ "/"

/-- The default `TASK_NODE_SERVER_READY` action (node.ts lines 169-198) as
the list of strings it prints: the banner, an empty line, then the hardhat
network account listing. -/
def serverReadyOutput (derive : String → String) (cfg : NetworkConfig)
    (address : String) (port : Nat) : List String :=
  startedBanner address port :: "" :: logHardhatNetworkAccounts derive cfg

/-- Replace only the watcher outcome of an environment. -/
def setWatch (env : Env) (w : Except CollabErr Unit) : Env :=
  ⟨env.networkName, env.explicitNetwork, env.hardhatNetworkConfig, env.paths, env.artifacts,
   env.insideDocker, env.resetResult, env.loggingResult, env.listenResult, w,
   env.waitClosedResult⟩

/-- A plain hardhat network configuration: no forking section, no accounts. -/
def cfgPlain : NetworkConfig := ⟨none, none⟩

/-- An environment on the hardhat network where every external call
succeeds; `listen` binds port 8546 although 8545 was requested. -/
def envLocalOk : Env :=
  ⟨HARDHAT_NETWORK_NAME, none, cfgPlain, "projectPaths", "buildArtifacts", false,
   Except.ok (), Except.ok (), Except.ok ⟨"127.0.0.1", 8546⟩, Except.ok (), Except.ok ()⟩

/-- An environment whose ambient network is `ropsten` without an explicit
`--network` argument (a non-hardhat `defaultNetwork`). -/
def envOtherDefault : Env :=
  ⟨"ropsten", none, cfgPlain, "projectPaths", "buildArtifacts", false,
   Except.ok (), Except.ok (), Except.ok ⟨"127.0.0.1", 8546⟩, Except.ok (), Except.ok ()⟩

/-- The default arguments of the node task: no overrides, port 8545. -/
def argsDefault : NodeArgs := ⟨none, none, none, 8545⟩

/-- The arguments `--fork-block-number 100` without `--fork-url`. -/
def argsForkBlock : NodeArgs := ⟨some 100, none, none, 8545⟩

/-- An environment like `envLocalOk` but inside a docker container. -/
def envDocker : Env :=
  ⟨HARDHAT_NETWORK_NAME, none, cfgPlain, "projectPaths", "buildArtifacts", true,
   Except.ok (), Except.ok (), Except.ok ⟨"0.0.0.0", 8545⟩, Except.ok (), Except.ok ()⟩

/-- An environment where the `ropsten` network was selected explicitly via
`--network ropsten`. -/
def envExplicitOther : Env :=
  ⟨"ropsten", some "ropsten", cfgPlain, "projectPaths", "buildArtifacts", false,
   Except.ok (), Except.ok (), Except.ok ⟨"127.0.0.1", 8546⟩, Except.ok (), Except.ok ()⟩

/-- A watcher failure. -/
def errBoom : CollabErr := ⟨"watch setup failed"⟩

/-- A listen failure. -/
def errListen : CollabErr := ⟨"EADDRINUSE"⟩

/-- An environment like `envLocalOk` whose watcher setup throws. -/
def envWatchFail : Env :=
  ⟨HARDHAT_NETWORK_NAME, none, cfgPlain, "projectPaths", "buildArtifacts", false,
   Except.ok (), Except.ok (), Except.ok ⟨"127.0.0.1", 8546⟩, Except.error errBoom,
   Except.ok ()⟩

/-- An environment like `envLocalOk` whose `server.listen()` rejects. -/
def envListenFail : Env :=
  ⟨HARDHAT_NETWORK_NAME, none, cfgPlain, "projectPaths", "buildArtifacts", false,
   Except.ok (), Except.ok (), Except.error errListen, Except.ok (), Except.ok ()⟩

/-- A network configuration with one configured account whose balance is
3 ETH plus 5 wei. -/
def cfgAccounts : NetworkConfig := ⟨none, some [⟨"0xabc", 3 * 10 ^ 18 + 5⟩]⟩

theorem wrapLaunchErrors_fst (p : List Event × Except LaunchErr Unit) :
    (wrapLaunchErrors p).1 = p.1 := by
  rcases p with ⟨evs, r⟩
  rcases r with e | u
  · rcases e with ⟨c, m, ca⟩ | e <;> rfl
  · rfl

theorem wrapLaunchErrors_ok (p : List Event × Except LaunchErr Unit) :
    (wrapLaunchErrors p).2 = Except.ok () ↔ p.2 = Except.ok () := by
  rcases p with ⟨evs, r⟩
  rcases r with e | u
  · rcases e with ⟨c, m, ca⟩ | e <;> simp [wrapLaunchErrors]
  · simp [wrapLaunchErrors]

theorem mem_creationEvents {env : Env} {e : Event} (h : e ∈ creationEvents env) :
    e = Event.createdProvider HARDHAT_NETWORK_NAME env.hardhatNetworkConfig
      env.paths env.artifacts := by
  unfold creationEvents at h
  split at h <;> simp_all

theorem creationEvents_local {env : Env} (h : env.networkName = HARDHAT_NETWORK_NAME) :
    creationEvents env = [] := by
  unfold creationEvents
  simp [h]

theorem mem_getProvider {b : Option Nat} {u : Option String} {env : Env} {e : Event}
    (h : e ∈ (runGetProvider b u env).1) :
    e ∈ creationEvents env ∨ ∃ r, e = Event.request r := by
  simp only [runGetProvider] at h
  rcases hu : effectiveForkUrl u env.hardhatNetworkConfig with _ | url <;>
    rw [hu] at h <;> dsimp only at h
  · rcases hb : effectiveForkBlockNumber b env.hardhatNetworkConfig with _ | n <;>
      rw [hb] at h <;> dsimp only at h
    · rcases hl : env.loggingResult with el | ul <;> rw [hl] at h <;> dsimp only at h <;>
        simp only [List.mem_append, List.mem_cons, List.not_mem_nil, or_false] at h <;>
        rcases h with h | h
      · exact Or.inl h
      · exact Or.inr ⟨_, h⟩
      · exact Or.inl h
      · exact Or.inr ⟨_, h⟩
    · exact Or.inl h
  · rcases hr : env.resetResult with er | ur <;> rw [hr] at h <;> dsimp only at h
    · simp only [List.mem_append, List.mem_cons, List.not_mem_nil, or_false] at h
      rcases h with h | h
      · exact Or.inl h
      · exact Or.inr ⟨_, h⟩
    · rcases hl : env.loggingResult with el | ul <;> rw [hl] at h <;> dsimp only at h <;>
        simp only [List.mem_append, List.mem_cons, List.not_mem_nil, or_false] at h <;>
        rcases h with h | h | h
      · exact Or.inl h
      · exact Or.inr ⟨_, h⟩
      · exact Or.inr ⟨_, h⟩
      · exact Or.inl h
      · exact Or.inr ⟨_, h⟩
      · exact Or.inr ⟨_, h⟩

theorem providerCalls_append (s t : List Event) :
    providerCalls (s ++ t) = providerCalls s ++ providerCalls t := by
  simp [providerCalls]

theorem providerCalls_creation (env : Env) : providerCalls (creationEvents env) = [] := by
  unfold creationEvents
  split <;> simp [providerCalls]

theorem getProvider_err_cases {b : Option Nat} {u : Option String} {env : Env} {er : LaunchErr}
    (h : (runGetProvider b u env).2 = Except.error er) :
    er = LaunchErr.hardhat ErrCode.nodeForkBlockNumberWithoutUrl none none ∨
      ∃ c, er = LaunchErr.external c := by
  simp only [runGetProvider] at h
  rcases hu : effectiveForkUrl u env.hardhatNetworkConfig with _ | url <;>
    rw [hu] at h <;> dsimp only at h
  · rcases hb : effectiveForkBlockNumber b env.hardhatNetworkConfig with _ | n <;>
      rw [hb] at h <;> dsimp only at h
    · rcases hl : env.loggingResult with el | ul <;> rw [hl] at h <;> dsimp only at h <;>
        first
          | (injection h with h2; subst h2; simp)
          | simp at h
    · injection h with h2
      subst h2
      simp
  · rcases hr : env.resetResult with er' | ur <;> rw [hr] at h <;> dsimp only at h
    · injection h with h2
      subst h2
      simp
    · rcases hl : env.loggingResult with el | ul <;> rw [hl] at h <;> dsimp only at h <;>
        first
          | (injection h with h2; subst h2; simp)
          | simp at h

theorem getProvider_hardhat_error {b : Option Nat} {u : Option String} {env : Env}
    {c : ErrCode} {m : Option String} {ca : Option CollabErr}
    (h : (runGetProvider b u env).2 = Except.error (LaunchErr.hardhat c m ca)) :
    c = ErrCode.nodeForkBlockNumberWithoutUrl ∧ m = none ∧ ca = none ∧
      (runGetProvider b u env).1 = creationEvents env ∧
      effectiveForkUrl u env.hardhatNetworkConfig = none ∧
      effectiveForkBlockNumber b env.hardhatNetworkConfig ≠ none := by
  rcases hu : effectiveForkUrl u env.hardhatNetworkConfig with _ | url <;>
    rcases hb : effectiveForkBlockNumber b env.hardhatNetworkConfig with _ | n <;>
      rcases hr : env.resetResult with er1 | u1 <;>
        rcases hl : env.loggingResult with el1 | u2 <;>
          simp only [runGetProvider, hu, hb, hr, hl] at h ⊢ <;> simp_all

theorem getProvider_ok_cases {b : Option Nat} {u : Option String} {env : Env} {p : Provider}
    (h : (runGetProvider b u env).2 = Except.ok p) :
    p = resolvedProvider env ∧
      (runGetProvider b u env).1 =
        creationEvents env ++
          (providerCalls (runGetProvider b u env).1).map Event.request ∧
      providerCalls (runGetProvider b u env).1 =
        (match effectiveForkUrl u env.hardhatNetworkConfig with
          | some url =>
            [ProviderCall.hardhatReset url
              (effectiveForkBlockNumber b env.hardhatNetworkConfig),
             ProviderCall.setLoggingEnabled true]
          | none => [ProviderCall.setLoggingEnabled true]) := by
  rcases hu : effectiveForkUrl u env.hardhatNetworkConfig with _ | url <;>
    rcases hb : effectiveForkBlockNumber b env.hardhatNetworkConfig with _ | n <;>
      rcases hr : env.resetResult with er1 | u1 <;>
        rcases hl : env.loggingResult with el1 | u2 <;>
          simp only [runGetProvider, hu, hb, hr, hl] at h ⊢ <;>
            simp_all [providerCalls_append, providerCalls_creation, providerCalls] <;>
              (intro a ha; rw [mem_creationEvents ha])

theorem wrapLaunchErrors_err_cases {p : List Event × Except LaunchErr Unit} {er : LaunchErr}
    (h : (wrapLaunchErrors p).2 = Except.error er) :
    (∃ c m ca, p.2 = Except.error (LaunchErr.hardhat c m ca) ∧ er = LaunchErr.hardhat c m ca) ∨
      (∃ c, p.2 = Except.error (LaunchErr.external c) ∧
        er = LaunchErr.hardhat ErrCode.jsonrpcServerError (some c.message) (some c)) := by
  rcases p with ⟨evs, r⟩
  rcases r with e | u
  · rcases e with ⟨c, m, ca⟩ | c
    · simp only [wrapLaunchErrors] at h
      injection h with h2
      exact Or.inl ⟨c, m, ca, rfl, h2.symm⟩
    · simp only [wrapLaunchErrors] at h
      injection h with h2
      exact Or.inr ⟨c, rfl, h2.symm⟩
  · simp [wrapLaunchErrors] at h

theorem runNode_unsupported {args : NodeArgs} {env : Env}
    (h : env.networkName ≠ HARDHAT_NETWORK_NAME ∧ env.explicitNetwork ≠ none) :
    runNode args env =
      ([], Except.error (LaunchErr.hardhat ErrCode.jsonrpcUnsupportedNetwork none none)) := by
  simp only [runNode, if_pos h]

theorem runNode_supported {args : NodeArgs} {env : Env}
    (h : ¬(env.networkName ≠ HARDHAT_NETWORK_NAME ∧ env.explicitNetwork ≠ none)) :
    runNode args env = wrapLaunchErrors (runNodeTry args env) := by
  simp only [runNode, if_neg h]

theorem runNodeTry_err_cases {args : NodeArgs} {env : Env} {er : LaunchErr}
    (h : (runNodeTry args env).2 = Except.error er) :
    er = LaunchErr.hardhat ErrCode.nodeForkBlockNumberWithoutUrl none none ∨
      ∃ c, er = LaunchErr.external c := by
  rcases hgp : (runGetProvider args.forkBlockNumber args.forkUrl env).2 with e | p
  · simp only [runNodeTry, hgp] at h
    injection h with h2
    subst h2
    exact getProvider_err_cases hgp
  · rcases hls : env.listenResult with el | lr <;>
      rcases hw : env.watchResult with ew | uw <;>
        rcases hwc : env.waitClosedResult with ec | uc <;>
          simp only [runNodeTry, hgp, hls, hw, hwc] at h <;>
            first
              | (injection h with h2; subst h2; simp)
              | simp at h

theorem runNodeTry_ok_shape {args : NodeArgs} {env : Env}
    (h : (runNodeTry args env).2 = Except.ok ()) :
    ∃ lr : ListenResult, env.listenResult = Except.ok lr ∧
      env.waitClosedResult = Except.ok () ∧
      (runNodeTry args env).1 =
        (runGetProvider args.forkBlockNumber args.forkUrl env).1 ++
        [Event.serverCreated (resolveHostname args.hostname env.insideDocker) args.port,
         Event.hookServerCreated (resolveHostname args.hostname env.insideDocker) args.port,
         Event.listenCalled] ++
        [Event.listenResolved lr.address lr.port, Event.watchCalled] ++
        (match env.watchResult with
          | Except.error e => [Event.warnLogged, Event.reportedError e]
          | Except.ok _ => []) ++
        [Event.hookServerReady lr.address lr.port, Event.waitUntilClosedCalled] ∧
      ∃ p, (runGetProvider args.forkBlockNumber args.forkUrl env).2 = Except.ok p := by
  rcases hgp : (runGetProvider args.forkBlockNumber args.forkUrl env).2 with e | p
  · simp only [runNodeTry, hgp] at h
    simp at h
  · rcases hls : env.listenResult with el | lr <;>
      rcases hw : env.watchResult with ew | uw <;>
        rcases hwc : env.waitClosedResult with ec | uc <;>
          simp only [runNodeTry, hgp, hls, hw, hwc] at h ⊢ <;>
            first
              | simp at h
              | (refine ⟨lr, ?_, ?_, ?_, p, ?_⟩ <;> simp [hls, hwc, hgp])

theorem mem_runNodeTry {args : NodeArgs} {env : Env} {e : Event}
    (h : e ∈ (runNodeTry args env).1) :
    e ∈ (runGetProvider args.forkBlockNumber args.forkUrl env).1 ∨
      e = Event.serverCreated (resolveHostname args.hostname env.insideDocker) args.port ∨
      e = Event.hookServerCreated (resolveHostname args.hostname env.insideDocker) args.port ∨
      e = Event.listenCalled ∨
      ∃ lr : ListenResult, env.listenResult = Except.ok lr ∧
        (e = Event.listenResolved lr.address lr.port ∨ e = Event.watchCalled ∨
         e = Event.warnLogged ∨ (∃ c, e = Event.reportedError c) ∨
         e = Event.hookServerReady lr.address lr.port ∨
         e = Event.waitUntilClosedCalled) := by
  rcases hgp : (runGetProvider args.forkBlockNumber args.forkUrl env).2 with er | p
  · simp only [runNodeTry, hgp] at h
    exact Or.inl h
  · rcases hls : env.listenResult with el | lr <;>
      rcases hw : env.watchResult with ew | uw <;>
        rcases hwc : env.waitClosedResult with ec | uc <;>
          simp only [runNodeTry, hgp, hls, hw, hwc, List.mem_append, List.mem_cons,
            List.not_mem_nil, or_false] at h <;>
            rcases h with h | h <;> simp_all <;> tauto

theorem runNode_ok_to_try {args : NodeArgs} {env : Env}
    (h : (runNode args env).2 = Except.ok ()) :
    (runNodeTry args env).2 = Except.ok () ∧
      (runNode args env).1 = (runNodeTry args env).1 := by
  by_cases hc : env.networkName ≠ HARDHAT_NETWORK_NAME ∧ env.explicitNetwork ≠ none
  · rw [runNode_unsupported hc] at h
    simp at h
  · rw [runNode_supported hc] at h ⊢
    exact ⟨(wrapLaunchErrors_ok _).1 h, wrapLaunchErrors_fst _⟩

theorem wrapLaunchErrors_hardhat {p : List Event × Except LaunchErr Unit}
    {c : ErrCode} {m : Option String} {ca : Option CollabErr}
    (h : p.2 = Except.error (LaunchErr.hardhat c m ca)) :
    (wrapLaunchErrors p).2 = Except.error (LaunchErr.hardhat c m ca) := by
  rcases p with ⟨evs, r⟩
  subst h
  rfl

theorem wrapLaunchErrors_external {p : List Event × Except LaunchErr Unit} {c : CollabErr}
    (h : p.2 = Except.error (LaunchErr.external c)) :
    (wrapLaunchErrors p).2 =
      Except.error (LaunchErr.hardhat ErrCode.jsonrpcServerError (some c.message) (some c)) := by
  rcases p with ⟨evs, r⟩
  subst h
  rfl

theorem setWatch_getProvider (b : Option Nat) (u : Option String) (env : Env)
    (w : Except CollabErr Unit) :
    runGetProvider b u (setWatch env w) = runGetProvider b u env := rfl

theorem setWatch_listenResult (env : Env) (w : Except CollabErr Unit) :
    (setWatch env w).listenResult = env.listenResult := rfl

theorem setWatch_watchResult (env : Env) (w : Except CollabErr Unit) :
    (setWatch env w).watchResult = w := rfl

theorem setWatch_waitClosedResult (env : Env) (w : Except CollabErr Unit) :
    (setWatch env w).waitClosedResult = env.waitClosedResult := rfl

/-- C1 (amended): when `forkBlockNumber` is supplied while `forkUrl` is absent
both as override and in the hardhat network configuration (and the launch is
not refused earlier as an unsupported network), the launch fails with the
`NODE_FORK_BLOCK_NUMBER_WITHOUT_URL` configuration error before any server
object is created, before either lifecycle hook runs and before any
provider-level configuration call is issued; on the local network no event at
all precedes the failure, but when the ambient network is non-local a fresh
local provider instance has already been constructed (the only possible prior
events are provider constructions). -/
theorem c1_fork_block_without_url (args : NodeArgs) (env : Env) (n : Nat)
    (hu : args.forkUrl = none)
    (hcfg : env.hardhatNetworkConfig.forking = none)
    (hb : args.forkBlockNumber = some n)
    (hns : ¬(env.networkName ≠ HARDHAT_NETWORK_NAME ∧ env.explicitNetwork ≠ none)) :
    (runNode args env).2 =
      Except.error (LaunchErr.hardhat ErrCode.nodeForkBlockNumberWithoutUrl none none) ∧
    (∀ e ∈ (runNode args env).1,
      e = Event.createdProvider HARDHAT_NETWORK_NAME env.hardhatNetworkConfig
        env.paths env.artifacts) ∧
    (env.networkName = HARDHAT_NETWORK_NAME → (runNode args env).1 = []) ∧
    providerCalls (runNode args env).1 = [] := by
  have hu2 : effectiveForkUrl args.forkUrl env.hardhatNetworkConfig = none := by
    simp [effectiveForkUrl, hu, hcfg]
  have hb2 : effectiveForkBlockNumber args.forkBlockNumber env.hardhatNetworkConfig = some n := by
    simp [effectiveForkBlockNumber, hb]
  have hgp : runGetProvider args.forkBlockNumber args.forkUrl env =
      (creationEvents env,
       Except.error (LaunchErr.hardhat ErrCode.nodeForkBlockNumberWithoutUrl none none)) := by
    simp only [runGetProvider, hu2, hb2]
  have htry : runNodeTry args env =
      (creationEvents env,
       Except.error (LaunchErr.hardhat ErrCode.nodeForkBlockNumberWithoutUrl none none)) := by
    simp only [runNodeTry, hgp]
  have hrn : runNode args env =
      (creationEvents env,
       Except.error (LaunchErr.hardhat ErrCode.nodeForkBlockNumberWithoutUrl none none)) := by
    rw [runNode_supported hns, htry]
    rfl
  rw [hrn]
  exact ⟨rfl, fun e he => mem_creationEvents he,
    fun hl => creationEvents_local hl, providerCalls_creation env⟩

theorem c1_fork_block_without_url_witness :
    (runNode argsForkBlock envLocalOk).2 =
      Except.error (LaunchErr.hardhat ErrCode.nodeForkBlockNumberWithoutUrl none none) ∧
    (runNode argsForkBlock envLocalOk).1 = [] :=
  have h := c1_fork_block_without_url argsForkBlock envLocalOk 100 rfl rfl rfl (by decide)
  ⟨h.1, h.2.2.1 rfl⟩

/-- C1 counterexample: with `--fork-block-number 100`, no fork url anywhere,
and the ambient network `ropsten` (not explicitly selected), the launch does
fail with `NODE_FORK_BLOCK_NUMBER_WITHOUT_URL`, but a provider object has
already been created before the failure, refuting "before any provider or
server object is created". -/
theorem c1_counterexample :
    (runNode argsForkBlock envOtherDefault).2 =
      Except.error (LaunchErr.hardhat ErrCode.nodeForkBlockNumberWithoutUrl none none) ∧
    Event.createdProvider HARDHAT_NETWORK_NAME cfgPlain "projectPaths" "buildArtifacts" ∈
      (runNode argsForkBlock envOtherDefault).1 := by
  constructor
  · rfl
  · decide

/-- C2: `UnsupportedNetworkError` (`JSONRPC_UNSUPPORTED_NETWORK`) is raised if
and only if the ambient network is not the hardhat network and the network was
selected explicitly; in that case it is raised with an empty trace, i.e.
before provider resolution begins. -/
theorem c2_unsupported_network (args : NodeArgs) (env : Env) :
    (failsWithCode ErrCode.jsonrpcUnsupportedNetwork (runNode args env) ↔
      env.networkName ≠ HARDHAT_NETWORK_NAME ∧ env.explicitNetwork ≠ none) ∧
    (env.networkName ≠ HARDHAT_NETWORK_NAME ∧ env.explicitNetwork ≠ none →
      runNode args env =
        ([], Except.error (LaunchErr.hardhat ErrCode.jsonrpcUnsupportedNetwork none none))) := by
  constructor
  · constructor
    · intro hf
      by_contra hc
      rw [runNode_supported hc] at hf
      rcases hf with ⟨m, ca, hf⟩
      rcases wrapLaunchErrors_err_cases hf with ⟨c2, m2, ca2, htry, heq⟩ | ⟨c2, htry, heq⟩
      · rcases runNodeTry_err_cases htry with h1 | ⟨cc, h1⟩ <;> simp_all
      · simp_all
    · intro hc
      exact ⟨none, none, by rw [runNode_unsupported hc]⟩
  · intro hc
    exact runNode_unsupported hc

theorem c2_unsupported_network_witness :
    (failsWithCode ErrCode.jsonrpcUnsupportedNetwork (runNode argsDefault envExplicitOther) ↔
      envExplicitOther.networkName ≠ HARDHAT_NETWORK_NAME ∧
        envExplicitOther.explicitNetwork ≠ none) ∧
    runNode argsDefault envExplicitOther =
      ([], Except.error (LaunchErr.hardhat ErrCode.jsonrpcUnsupportedNetwork none none)) :=
  have h := c2_unsupported_network argsDefault envExplicitOther
  ⟨h.1, h.2 (by decide)⟩

/-- C3: an explicit hostname override is used verbatim; otherwise the resolved
hostname is `0.0.0.0` when the docker marker file is present and `localhost`
when it is absent; and every server created by a launch uses exactly the
resolved hostname and the requested port. -/
theorem c3_hostname (args : NodeArgs) (env : Env) :
    (∀ hName, args.hostname = some hName →
      resolveHostname args.hostname env.insideDocker = hName) ∧
    (args.hostname = none → env.insideDocker = true →
      resolveHostname args.hostname env.insideDocker = "0.0.0.0") ∧
    (args.hostname = none → env.insideDocker = false →
      resolveHostname args.hostname env.insideDocker = "localhost") ∧
    (∀ hName p, Event.serverCreated hName p ∈ (runNode args env).1 →
      hName = resolveHostname args.hostname env.insideDocker ∧ p = args.port) := by
  refine ⟨?_, ?_, ?_, ?_⟩
  · intro hName hh
    simp [resolveHostname, hh]
  · intro hh hd
    simp [resolveHostname, hh, hd]
  · intro hh hd
    simp [resolveHostname, hh, hd]
  · intro hName p hmem
    by_cases hc : env.networkName ≠ HARDHAT_NETWORK_NAME ∧ env.explicitNetwork ≠ none
    · rw [runNode_unsupported hc] at hmem
      simp at hmem
    · rw [runNode_supported hc, wrapLaunchErrors_fst] at hmem
      rcases mem_runNodeTry hmem with hg | h | h | h | ⟨lr, _, hcase⟩
      · rcases mem_getProvider hg with hce | ⟨r, hr⟩
        · cases mem_creationEvents hce
        · cases hr
      · injection h with h1 h2
        exact ⟨h1, h2⟩
      · cases h
      · cases h
      · rcases hcase with h | h | h | ⟨c, h⟩ | h | h <;> cases h

theorem c3_hostname_witness :
    resolveHostname (some "192.168.0.7") false = "192.168.0.7" ∧
    resolveHostname none true = "0.0.0.0" ∧
    resolveHostname none false = "localhost" :=
  ⟨(c3_hostname ⟨none, none, some "192.168.0.7", 8545⟩ envLocalOk).1 "192.168.0.7" rfl,
   (c3_hostname argsDefault envDocker).2.1 rfl rfl,
   (c3_hostname argsDefault envLocalOk).2.2.1 rfl rfl⟩

/-- C4 (amended): the effective fork url is the override if present, else the
configured forking url, and the effective fork block number analogously; when
provider resolution completes successfully, the provider-level configuration
calls are exactly a fork reset with the effective url and block followed by
enable-logging when an effective fork url is present, and enable-logging alone
otherwise; when the effective block number is present without an effective
url, resolution fails having issued no provider-level call. -/
theorem c4_provider_calls (b : Option Nat) (u : Option String) (env : Env) :
    (∀ x, u = some x → effectiveForkUrl u env.hardhatNetworkConfig = some x) ∧
    (u = none → effectiveForkUrl u env.hardhatNetworkConfig =
      env.hardhatNetworkConfig.forking.map Forking.url) ∧
    (∀ x, b = some x → effectiveForkBlockNumber b env.hardhatNetworkConfig = some x) ∧
    (b = none → effectiveForkBlockNumber b env.hardhatNetworkConfig =
      env.hardhatNetworkConfig.forking.bind Forking.blockNumber) ∧
    ((∃ p, (runGetProvider b u env).2 = Except.ok p) →
      providerCalls (runGetProvider b u env).1 =
        (match effectiveForkUrl u env.hardhatNetworkConfig with
          | some url =>
            [ProviderCall.hardhatReset url
              (effectiveForkBlockNumber b env.hardhatNetworkConfig),
             ProviderCall.setLoggingEnabled true]
          | none => [ProviderCall.setLoggingEnabled true])) ∧
    (effectiveForkUrl u env.hardhatNetworkConfig = none →
      effectiveForkBlockNumber b env.hardhatNetworkConfig ≠ none →
      providerCalls (runGetProvider b u env).1 = [] ∧
      (runGetProvider b u env).2 =
        Except.error (LaunchErr.hardhat ErrCode.nodeForkBlockNumberWithoutUrl none none)) := by
  refine ⟨?_, ?_, ?_, ?_, ?_, ?_⟩
  · intro x hx
    simp [effectiveForkUrl, hx]
  · intro hx
    simp [effectiveForkUrl, hx]
  · intro x hx
    simp [effectiveForkBlockNumber, hx]
  · intro hx
    simp [effectiveForkBlockNumber, hx]
  · rintro ⟨p, hp⟩
    exact (getProvider_ok_cases hp).2.2
  · intro hu hb
    rcases hbn : effectiveForkBlockNumber b env.hardhatNetworkConfig with _ | n
    · exact absurd hbn hb
    · have hgp : runGetProvider b u env =
          (creationEvents env,
           Except.error (LaunchErr.hardhat ErrCode.nodeForkBlockNumberWithoutUrl none none)) := by
        simp only [runGetProvider, hu, hbn]
      rw [hgp]
      exact ⟨providerCalls_creation env, rfl⟩

theorem c4_provider_calls_witness :
    providerCalls (runGetProvider none (some "http://fork.example") envLocalOk).1 =
      [ProviderCall.hardhatReset "http://fork.example" none,
       ProviderCall.setLoggingEnabled true] := by
  have h := (c4_provider_calls none (some "http://fork.example") envLocalOk).2.2.2.2.1
    ⟨Provider.ambient, by decide⟩
  rw [h]
  rfl

/-- C4 counterexample: with a fork block number override, no fork url
anywhere, the effective fork url is absent yet zero provider-level calls are
issued (resolution fails), refuting "otherwise exactly one
(enable-logging alone)". -/
theorem c4_counterexample :
    effectiveForkUrl none envOtherDefault.hardhatNetworkConfig = none ∧
    providerCalls (runGetProvider (some 100) none envOtherDefault).1 = [] ∧
    providerCalls (runGetProvider (some 100) none envOtherDefault).1 ≠
      [ProviderCall.setLoggingEnabled true] := by
  refine ⟨rfl, rfl, ?_⟩
  decide

/-- C5: in every successful launch the server-created hook fires strictly
before `listen()` is called, `listen()` resolves after being called, and the
server-ready hook fires strictly after `listen()` resolved, receiving exactly
the address and port `listen()` resolved to (which may differ from the
requested port, as the witness shows with bound port 8546 versus requested
port 8545). -/
theorem c5_hook_ordering (args : NodeArgs) (env : Env)
    (h : (runNode args env).2 = Except.ok ()) :
    ∃ lr : ListenResult, env.listenResult = Except.ok lr ∧
      eventBefore
        (Event.hookServerCreated (resolveHostname args.hostname env.insideDocker) args.port)
        Event.listenCalled (runNode args env).1 ∧
      eventBefore Event.listenCalled (Event.listenResolved lr.address lr.port)
        (runNode args env).1 ∧
      eventBefore (Event.listenResolved lr.address lr.port)
        (Event.hookServerReady lr.address lr.port) (runNode args env).1 := by
  obtain ⟨htry, htr⟩ := runNode_ok_to_try h
  obtain ⟨lr, hls, hwc, htrace, p, hgp⟩ := runNodeTry_ok_shape htry
  set G := (runGetProvider args.forkBlockNumber args.forkUrl env).1 with hG
  set W := (match env.watchResult with
    | Except.error e => [Event.warnLogged, Event.reportedError e]
    | Except.ok _ => []) with hW
  set hn := resolveHostname args.hostname env.insideDocker with hhn
  refine ⟨lr, hls, ?_, ?_, ?_⟩ <;> rw [htr, htrace] <;> unfold eventBefore
  · exact ⟨G ++ [Event.serverCreated hn args.port], [],
      [Event.listenResolved lr.address lr.port, Event.watchCalled] ++ W ++
        [Event.hookServerReady lr.address lr.port, Event.waitUntilClosedCalled],
      by simp⟩
  · exact ⟨G ++ [Event.serverCreated hn args.port, Event.hookServerCreated hn args.port], [],
      [Event.watchCalled] ++ W ++
        [Event.hookServerReady lr.address lr.port, Event.waitUntilClosedCalled],
      by simp⟩
  · exact ⟨G ++ [Event.serverCreated hn args.port, Event.hookServerCreated hn args.port,
        Event.listenCalled],
      [Event.watchCalled] ++ W, [Event.waitUntilClosedCalled],
      by simp⟩

theorem c5_hook_ordering_witness :
    (∃ lr : ListenResult, envLocalOk.listenResult = Except.ok lr ∧
      eventBefore (Event.hookServerCreated "localhost" 8545) Event.listenCalled
        (runNode argsDefault envLocalOk).1 ∧
      eventBefore Event.listenCalled (Event.listenResolved lr.address lr.port)
        (runNode argsDefault envLocalOk).1 ∧
      eventBefore (Event.listenResolved lr.address lr.port)
        (Event.hookServerReady lr.address lr.port) (runNode argsDefault envLocalOk).1) ∧
    (8546 : Nat) ≠ 8545 :=
  ⟨c5_hook_ordering argsDefault envLocalOk (by decide), by decide⟩

/-- C6: when the launch reaches the watcher and the watcher throws, the error
is absorbed: a warning is logged, the error is forwarded to the reporter, the
server-ready hook still fires with the bound address and port, and the
launch outcome is exactly the outcome it would have with a succeeding
watcher (in particular a watcher failure alone never fails the launch). -/
theorem c6_watcher_failure (args : NodeArgs) (env : Env) (e : CollabErr)
    (hw : env.watchResult = Except.error e)
    (hreach : Event.watchCalled ∈ (runNode args env).1) :
    Event.warnLogged ∈ (runNode args env).1 ∧
    Event.reportedError e ∈ (runNode args env).1 ∧
    (∃ lr : ListenResult, env.listenResult = Except.ok lr ∧
      Event.hookServerReady lr.address lr.port ∈ (runNode args env).1) ∧
    (runNode args env).2 = (runNode args (setWatch env (Except.ok ()))).2 := by
  by_cases hc : env.networkName ≠ HARDHAT_NETWORK_NAME ∧ env.explicitNetwork ≠ none
  · rw [runNode_unsupported hc] at hreach
    simp at hreach
  · have hc2 : ¬((setWatch env (Except.ok ())).networkName ≠ HARDHAT_NETWORK_NAME ∧
        (setWatch env (Except.ok ())).explicitNetwork ≠ none) := hc
    rw [runNode_supported hc, wrapLaunchErrors_fst] at hreach
    rw [runNode_supported hc, runNode_supported hc2, wrapLaunchErrors_fst]
    rcases hgp : (runGetProvider args.forkBlockNumber args.forkUrl env).2 with er | p
    · simp only [runNodeTry, hgp] at hreach
      rcases mem_getProvider hreach with hce | ⟨r, hr⟩
      · cases mem_creationEvents hce
      · cases hr
    · rcases hls : env.listenResult with el | lr
      · simp only [runNodeTry, hgp, hls] at hreach
        simp only [List.mem_append, List.mem_cons, List.not_mem_nil, or_false] at hreach
        rcases hreach with h | h | h | h
        · rcases mem_getProvider h with hce | ⟨r, hr⟩
          · cases mem_creationEvents hce
          · cases hr
        · cases h
        · cases h
        · cases h
      · have hgp2 : runGetProvider args.forkBlockNumber args.forkUrl
            (setWatch env (Except.ok ())) =
            runGetProvider args.forkBlockNumber args.forkUrl env := rfl
        rcases hwc : env.waitClosedResult with ec | uc <;>
          refine ⟨?_, ?_, ⟨lr, rfl, ?_⟩, ?_⟩ <;>
            simp only [runNodeTry, hgp2, hgp, setWatch_listenResult, hls,
              setWatch_watchResult, setWatch_waitClosedResult, hw, hwc,
              wrapLaunchErrors] <;>
              simp

theorem c6_watcher_failure_witness :
    Event.warnLogged ∈ (runNode argsDefault envWatchFail).1 ∧
    Event.reportedError errBoom ∈ (runNode argsDefault envWatchFail).1 ∧
    (∃ lr : ListenResult, envWatchFail.listenResult = Except.ok lr ∧
      Event.hookServerReady lr.address lr.port ∈ (runNode argsDefault envWatchFail).1) ∧
    (runNode argsDefault envWatchFail).2 =
      (runNode argsDefault (setWatch envWatchFail (Except.ok ()))).2 :=
  c6_watcher_failure argsDefault envWatchFail errBoom rfl (by decide)

/-- C7: every error escaping a launch is either a recognized `HardhatError`
(the unsupported-network or fork-block-number configuration error, unchanged
and carrying no cause) or the uniform `JSONRPC_SERVER_ERROR` wrapper carrying
the original collaborator error message and the original error as cause;
moreover a `HardhatError` raised inside the try block propagates unmodified,
while a non-`HardhatError` is rethrown wrapped. -/
theorem c7_error_wrapping (args : NodeArgs) (env : Env) :
    (∀ er, (runNode args env).2 = Except.error er →
      er = LaunchErr.hardhat ErrCode.jsonrpcUnsupportedNetwork none none ∨
      er = LaunchErr.hardhat ErrCode.nodeForkBlockNumberWithoutUrl none none ∨
      ∃ c, er = LaunchErr.hardhat ErrCode.jsonrpcServerError (some c.message) (some c)) ∧
    (∀ c m ca, ¬(env.networkName ≠ HARDHAT_NETWORK_NAME ∧ env.explicitNetwork ≠ none) →
      (runNodeTry args env).2 = Except.error (LaunchErr.hardhat c m ca) →
      (runNode args env).2 = Except.error (LaunchErr.hardhat c m ca)) ∧
    (∀ c, ¬(env.networkName ≠ HARDHAT_NETWORK_NAME ∧ env.explicitNetwork ≠ none) →
      (runNodeTry args env).2 = Except.error (LaunchErr.external c) →
      (runNode args env).2 = Except.error (LaunchErr.hardhat ErrCode.jsonrpcServerError
        (some c.message) (some c))) := by
  refine ⟨?_, ?_, ?_⟩
  · intro er her
    by_cases hc : env.networkName ≠ HARDHAT_NETWORK_NAME ∧ env.explicitNetwork ≠ none
    · rw [runNode_unsupported hc] at her
      injection her with h2
      exact Or.inl h2.symm
    · rw [runNode_supported hc] at her
      rcases wrapLaunchErrors_err_cases her with ⟨c2, m2, ca2, htry, heq⟩ | ⟨c2, htry, heq⟩
      · rcases runNodeTry_err_cases htry with h1 | ⟨cc, h1⟩
        · rw [heq, h1]
          exact Or.inr (Or.inl rfl)
        · cases h1
      · exact Or.inr (Or.inr ⟨c2, heq⟩)
  · intro c m ca hc htry
    rw [runNode_supported hc]
    exact wrapLaunchErrors_hardhat htry
  · intro c hc htry
    rw [runNode_supported hc]
    exact wrapLaunchErrors_external htry

theorem c7_error_wrapping_witness :
    LaunchErr.hardhat ErrCode.jsonrpcServerError (some errListen.message) (some errListen) =
        LaunchErr.hardhat ErrCode.jsonrpcUnsupportedNetwork none none ∨
      LaunchErr.hardhat ErrCode.jsonrpcServerError (some errListen.message) (some errListen) =
        LaunchErr.hardhat ErrCode.nodeForkBlockNumberWithoutUrl none none ∨
      ∃ c, LaunchErr.hardhat ErrCode.jsonrpcServerError (some errListen.message)
          (some errListen) =
        LaunchErr.hardhat ErrCode.jsonrpcServerError (some c.message) (some c) :=
  (c7_error_wrapping argsDefault envListenFail).1
    (LaunchErr.hardhat ErrCode.jsonrpcServerError (some errListen.message) (some errListen))
    (by decide)

/-- C8: when provider resolution succeeds on an ambient network that is not
the hardhat network, the produced provider is a freshly constructed one
configured as the hardhat network from its declared configuration, the
project paths and the build artifacts (and the construction is visible in the
trace); on the hardhat network the ambient provider is returned and no
provider construction occurs. -/
theorem c8_provider_selection (b : Option Nat) (u : Option String) (env : Env) (p : Provider)
    (h : (runGetProvider b u env).2 = Except.ok p) :
    (env.networkName ≠ HARDHAT_NETWORK_NAME →
      p = Provider.fresh HARDHAT_NETWORK_NAME env.hardhatNetworkConfig env.paths
        env.artifacts ∧
      Event.createdProvider HARDHAT_NETWORK_NAME env.hardhatNetworkConfig env.paths
        env.artifacts ∈ (runGetProvider b u env).1) ∧
    (env.networkName = HARDHAT_NETWORK_NAME →
      p = Provider.ambient ∧
      ∀ nm cfg pa ar, Event.createdProvider nm cfg pa ar ∉ (runGetProvider b u env).1) := by
  obtain ⟨hp, htrace, hcalls⟩ := getProvider_ok_cases h
  constructor
  · intro hne
    refine ⟨by simp [hp, resolvedProvider, hne], ?_⟩
    rw [htrace]
    have hce : Event.createdProvider HARDHAT_NETWORK_NAME env.hardhatNetworkConfig env.paths
        env.artifacts ∈ creationEvents env := by
      simp [creationEvents, hne]
    exact List.mem_append_left _ hce
  · intro heq
    refine ⟨by simp [hp, resolvedProvider, heq], ?_⟩
    intro nm cfg pa ar hmem
    rw [htrace] at hmem
    rcases List.mem_append.1 hmem with h1 | h1
    · rw [creationEvents_local heq] at h1
      simp at h1
    · simp at h1

theorem c8_provider_selection_witness :
    Event.createdProvider HARDHAT_NETWORK_NAME cfgPlain "projectPaths" "buildArtifacts" ∈
      (runGetProvider none none envOtherDefault).1 :=
  ((c8_provider_selection none none envOtherDefault
      (Provider.fresh HARDHAT_NETWORK_NAME cfgPlain "projectPaths" "buildArtifacts")
      (by decide)).1 (by decide)).2

/-- C9: the default server-ready action always prints the started banner
first; when the account list is not configured it prints nothing beyond the
banner and a blank line; when it is configured it additionally prints the
accounts header and, in configured order, one block per account containing
the address derived from the account's private key, the balance divided by
10^18, and the private key. -/
theorem c9_server_ready_output (derive : String → String) (cfg : NetworkConfig)
    (address : String) (port : Nat) :
    (serverReadyOutput derive cfg address port).head? = some (startedBanner address port) ∧
    (cfg.accounts = none →
      serverReadyOutput derive cfg address port = [startedBanner address port, ""]) ∧
    (∀ l, cfg.accounts = some l →
      serverReadyOutput derive cfg address port =
        startedBanner address port :: "" :: "Accounts" :: "========" ::
          l.enum.map (fun p =>
            "Account #" ++ toString p.1 ++ ": " ++ derive p.2.privateKey ++ " (" ++
              toString (p.2.balance / 10 ^ 18) ++ " ETH)\nPrivate Key: " ++
              p.2.privateKey ++ "\n")) := by
  refine ⟨rfl, ?_, ?_⟩
  · intro h
    simp [serverReadyOutput, logHardhatNetworkAccounts, h]
  · intro l h
    simp [serverReadyOutput, logHardhatNetworkAccounts, h, accountBlock, displayedBalance]

theorem c9_server_ready_output_witness :
    serverReadyOutput (fun s => s) cfgAccounts "127.0.0.1" 8546 =
      ["Started HTTP and WebSocket JSON-RPC server at http://127.0.0.1:8546/", "",
       "Accounts", "========", "Account #0: 0xabc (3 ETH)\nPrivate Key: 0xabc\n"] := by
  have h := (c9_server_ready_output (fun s => s) cfgAccounts "127.0.0.1" 8546).2.2
    [⟨"0xabc", 3 * 10 ^ 18 + 5⟩] rfl
  rw [h]
  rfl

/-- C10: the displayed balance is the floor of the balance divided by 10^18:
the remainder in base units is dropped, and a balance strictly below 10^18
base units is displayed as 0. -/
theorem c10_balance_truncation (a : Account) :
    displayedBalance a = a.balance / 10 ^ 18 ∧
    displayedBalance a * 10 ^ 18 + a.balance % 10 ^ 18 = a.balance ∧
    (a.balance < 10 ^ 18 → displayedBalance a = 0) := by
  refine ⟨rfl, ?_, ?_⟩
  · simpa [displayedBalance, Nat.mul_comm] using Nat.div_add_mod a.balance (10 ^ 18)
  · intro h
    exact Nat.div_eq_of_lt h

theorem c10_balance_truncation_witness :
    displayedBalance ⟨"0xkey", 999999999999999999⟩ = 0 ∧
    displayedBalance ⟨"0xkey2", 3 * 10 ^ 18 + 5⟩ = 3 :=
  ⟨(c10_balance_truncation ⟨"0xkey", 999999999999999999⟩).2.2 (by norm_num),
   by rw [(c10_balance_truncation ⟨"0xkey2", 3 * 10 ^ 18 + 5⟩).1]; decide⟩

end NodeTask
